import Mathlib

/-!
# Tedlist mobile: verified model of the trade-matching core

Shallow embedding of the tedlist-mobile repository's core logic:

* the image-URL normalisation helpers `ensureAbsoluteImageUrl`
  (two variants: `src/api/itemService.ts` and the copy embedded in
  `src/api/tradeService.ts`),
* the `getUserItems` response-shape handling of `itemService.ts`,
* the form validations of `SubmitItemScreen.tsx` and `RegisterScreen.tsx`,
* the notification read-state handlers of `NotificationsScreen.tsx`,
* the swipe handlers of `SwipeScreen.tsx`,
* the `createTrade` client wrapper of `tradeService.ts`,
* the item-lifecycle status machine and the trade propose/accept/reject
  workflow.  The backend controllers are not part of the repository (only
  Mongoose models and Express routers are), so the workflow operations are
  modelled from the specification (sections 4.2 and 4.3 of the spec).

Strings are modelled as `List Char` so that the JavaScript string
operations used by the source (startsWith, includes, split, replace of a
leading pattern, trim, toLowerCase) have direct structurally-recursive
counterparts.
-/

/-- JavaScript strings are modelled as lists of characters. -/
abbrev Str := List Char

/-- Conversion from Lean string literals to the `Str` model. -/
def str (s : String) : Str := s.data

/-- `leadsWith p s` is JavaScript `s.startsWith(p)`. -/
def leadsWith : Str → Str → Bool
  | [], _ => true
  | _ :: _, [] => false
  | p :: ps, c :: cs => p == c && leadsWith ps cs

/-- `hasSub p s` is JavaScript `s.includes(p)`. -/
def hasSub (pat : Str) : Str → Bool
  | [] => leadsWith pat []
  | c :: t => leadsWith pat (c :: t) || hasSub pat t

/-- The part of `s` after the last `/` or `\` (JavaScript
`s.replace(/^.*[\/\\]/, '')`, and also `s.split(/[\/\\]/).pop()`). -/
def lastSegAny (s : Str) : Str :=
  ((s.reverse.takeWhile (fun c => !(c == '/' || c == '\\'))).reverse)

/-- The part of `s` after the last `/` (the last element of
JavaScript `s.split('/')`). -/
def lastSegSlash (s : Str) : Str :=
  ((s.reverse.takeWhile (fun c => !(c == '/'))).reverse)

/-- JavaScript `s.replace(/^[/]+/, '')`: drop all leading forward slashes. -/
def dropLeadSlashes (s : Str) : Str := s.dropWhile (fun c => c == '/')

/-- JavaScript replace of the anchored pattern `images-` by the empty
string: remove one leading `images-` if present. -/
def stripImagesLead (s : Str) : Str :=
  if leadsWith (str "images-") s then s.drop 7 else s

/-- JavaScript `s.toLowerCase()` (ASCII-level model). -/
def toLowerStr (s : Str) : Str := s.map Char.toLower

/-- JavaScript `s.trim()`. -/
def trimStr (s : Str) : Str :=
  ((s.dropWhile Char.isWhitespace).reverse.dropWhile Char.isWhitespace).reverse

/-- The S3 host substring tested by both URL helpers. -/
def s3pat : Str := str "s3.amazonaws.com"

/-- `IMAGE_PROXY_URL` of `tradeService.ts`. -/
def proxyU : Str := str "https://tedlist-backend.onrender.com/api/images"

/-- The placeholder-category table of `itemService.ts` (`categoryMap`),
keyed by category keyword; any non-key falls to the `other` entry. -/
def catMap (k : Str) : Str :=
  if k = str "electronics" then str "https://via.placeholder.com/300/2196F3/FFFFFF?text=Electronics"
  else if k = str "furniture" then str "https://via.placeholder.com/300/4CAF50/FFFFFF?text=Furniture"
  else if k = str "clothing" then str "https://via.placeholder.com/300/FFC107/FFFFFF?text=Clothing"
  else if k = str "books" then str "https://via.placeholder.com/300/9C27B0/FFFFFF?text=Books"
  else if k = str "toys" then str "https://via.placeholder.com/300/E91E63/FFFFFF?text=Toys"
  else str "https://via.placeholder.com/300/607D8B/FFFFFF?text=Item"

/-- The `Object.keys(categoryMap).forEach` scan of `itemService.ts`:
starting from `other`, each category whose keyword occurs in the
lowercased filename overwrites the pick, so the last hit wins. -/
def pickCat (fnl : Str) : Str :=
  let c0 := str "other"
  let c1 := if hasSub (str "electronics") fnl then str "electronics" else c0
  let c2 := if hasSub (str "furniture") fnl then str "furniture" else c1
  let c3 := if hasSub (str "clothing") fnl then str "clothing" else c2
  let c4 := if hasSub (str "books") fnl then str "books" else c3
  let c5 := if hasSub (str "toys") fnl then str "toys" else c4
  if hasSub (str "other") fnl then str "other" else c5

/-- `ensureAbsoluteImageUrl` of `src/api/itemService.ts` (lines 14-74):
empty input gives the empty string; URLs containing the S3 host are
ensured an `https://` scheme; complete `http(s)://` URLs pass through;
every other input is replaced by a category placeholder URL chosen from
the extracted filename.  (The code after the placeholder `return` is
unreachable in the source and is not modelled.) -/
def ensureAbsoluteImageUrlItem (u : Str) : Str :=
  if u = [] then []
  else if hasSub s3pat u then
    (if leadsWith (str "http") u then u else str "https://" ++ dropLeadSlashes u)
  else if leadsWith (str "http://") u || leadsWith (str "https://") u then u
  else catMap (pickCat (toLowerStr (lastSegAny u)))

/-- `ensureAbsoluteImageUrl` of the item-service copy embedded in
`src/api/tradeService.ts` (lines 169-222): proxy URLs are re-cleaned,
S3 URLs and paths are rewritten to `IMAGE_PROXY_URL/<filename>` with a
leading `images-` stripped once, bare filenames likewise. -/
def ensureAbsoluteImageUrlTrade (u : Str) : Str :=
  if u = [] then []
  else if leadsWith proxyU u then
    proxyU ++ '/' :: stripImagesLead (lastSegSlash u)
  else if hasSub s3pat u then
    (if stripImagesLead (lastSegAny u) = [] then []
     else proxyU ++ '/' :: stripImagesLead (lastSegAny u))
  else if !(u.contains '/' || u.contains '\\') then
    proxyU ++ '/' :: stripImagesLead u
  else
    (if stripImagesLead (lastSegAny u) = [] then []
     else proxyU ++ '/' :: stripImagesLead (lastSegAny u))

/-! ## getUserItems response handling (`src/api/itemService.ts`, lines 160-283) -/

/-- The owner object of a raw backend item. -/
structure RawOwner where
  oid : Str
  oname : Str
deriving DecidableEq, Repr

/-- A raw backend item as probed by `getUserItems`; `Option` models a
field that may be absent (`undefined`). -/
structure RawItem where
  mongoId : Option Str
  plainId : Option Str
  title : Option Str
  nameF : Option Str
  description : Option Str
  condition : Option Str
  category : Option Str
  typeF : Option Str
  images : Option (List Str)
  cacheKey : Option Str
  ownerF : Option RawOwner
  userId : Option Str
  statusF : Option Str
  createdAt : Option Str
  updatedAt : Option Str
deriving DecidableEq, Repr

/-- JavaScript `a || b` on possibly-absent strings (absent and empty are
falsy). -/
def jsOrStr (a : Option Str) (b : Str) : Str :=
  match a with
  | some s => if s = [] then b else s
  | none => b

/-- JavaScript `a || b` where both sides may be absent strings. -/
def jsOrOptStr (a b : Option Str) : Option Str :=
  match a with
  | some s => if s = [] then b else some s
  | none => b

/-- A transformed item as produced by `getUserItems`. -/
structure ItemOut where
  id : Str
  nameO : Option Str
  description : Str
  condition : Str
  category : Option Str
  typeF : Option Str
  images : List Str
  thumbnails : List Str
  cacheKey : Option Str
  ownerId : Str
  ownerName : Str
  statusF : Str
  createdAt : Str
  updatedAt : Str
deriving DecidableEq, Repr

/-- The per-element transform of `getUserItems` (`itemService.ts` lines
202-229 and 243-269, which are identical): images run through
`ensureAbsoluteImageUrl`, with a picsum default when absent or empty;
`now` stands for `new Date().toISOString()`. -/
def transformUserItem (now : Str) (it : RawItem) : ItemOut :=
  let processedImages :=
    match it.images with
    | some imgs =>
        if imgs.length > 0 then imgs.map ensureAbsoluteImageUrlItem
        else [str "https://picsum.photos/id/1/200/300"]
    | none => [str "https://picsum.photos/id/1/200/300"]
  { id := jsOrStr it.mongoId (jsOrStr it.plainId [])
    nameO := jsOrOptStr it.title it.nameF
    description := jsOrStr it.description []
    condition := jsOrStr it.condition (str "Unknown")
    category := it.category
    typeF := it.typeF
    images := processedImages
    thumbnails := processedImages
    cacheKey := it.cacheKey
    ownerId := match it.ownerF with
      | some o => o.oid
      | none => jsOrStr it.userId []
    ownerName := match it.ownerF with
      | some o => o.oname
      | none => str "Owner"
    statusF := jsOrStr it.statusF (str "available")
    createdAt := jsOrStr it.createdAt now
    updatedAt := jsOrStr it.updatedAt now }

/-- The body shapes distinguished by `getUserItems`: a JSON array, an
object with an `items` array, an object without one, or a non-object. -/
inductive RespBody where
  | arr (xs : List RawItem)
  | objWithItems (xs : List RawItem)
  | objOther
  | nonObject
deriving DecidableEq, Repr

/-- `getUserItems` response handling (`itemService.ts` lines 200-278):
an array body is mapped element-wise, an object body with an `items`
array is mapped element-wise, and every other shape yields `[]`. -/
def getUserItems (now : Str) : RespBody → List ItemOut
  | .arr xs => xs.map (transformUserItem now)
  | .objWithItems xs => xs.map (transformUserItem now)
  | .objOther => []
  | .nonObject => []

/-! ## SubmitItemScreen (`src/screens/SubmitItemScreen.tsx`) -/

/-- The form state validated by `handleSubmit`. -/
structure SubmitForm where
  nameT : Str
  description : Str
  category : Str
  condition : Str
  images : List Str
deriving DecidableEq, Repr

/-- The validation alerts of `handleSubmit`, in source order. -/
inductive SubmitIssue where
  | missingName
  | missingDescription
  | missingCategory
  | missingCondition
  | missingImages
deriving DecidableEq, Repr

/-- The validation sequence of `handleSubmit` (lines 108-133): the first
failing check aborts with its alert; `none` means the submission
proceeds to upload. -/
def submitValidation (f : SubmitForm) : Option SubmitIssue :=
  if trimStr f.nameT = [] then some .missingName
  else if trimStr f.description = [] then some .missingDescription
  else if f.category = [] then some .missingCategory
  else if f.condition = [] then some .missingCondition
  else if f.images.length = 0 then some .missingImages
  else none

/-- `handleChooseFromLibrary` (lines 88-97): new assets are appended and
the total is truncated to 3 when it exceeds 3. -/
def addLibraryImages (cur new : List Str) : List Str :=
  let all := cur ++ new
  if all.length > 3 then all.take 3 else all

/-- `handleTakePhoto` (lines 62-64): new assets are appended with no
cap. -/
def addCameraImages (cur new : List Str) : List Str := cur ++ new

/-! ## RegisterScreen (`src/screens/RegisterScreen.tsx`) -/

/-- The form fields read by `validateForm`. -/
structure RegForm where
  nameT : Str
  email : Str
  password : Str
  confirmPassword : Str
deriving DecidableEq, Repr

/-- The per-field error messages set by `validateForm`, as tags. -/
inductive FieldIssue where
  | requiredEmpty
  | badEmailFormat
  | pwTooShort
  | confirmMissing
  | pwMismatch
deriving DecidableEq, Repr

/-- Split a string at every occurrence of `sep`. -/
def splitChar (sep : Char) : Str → List Str
  | [] => [[]]
  | c :: t =>
    if c == sep then [] :: splitChar sep t
    else match splitChar sep t with
      | [] => [[c]]
      | h :: r => (c :: h) :: r

/-- A character admissible on either side of the register email regex:
neither whitespace nor `@`. -/
def emailChar (c : Char) : Bool := !(c.isWhitespace || c == '@')

/-- The email test of `validateForm` (the anchored regex
`[^\s@]+@[^\s@]+\.[^\s@]+`): exactly one `@`, a nonempty local part, and
a domain containing a dot that is neither its first nor its last
character, with no whitespace anywhere. -/
def emailOk (s : Str) : Bool :=
  match splitChar '@' s with
  | [loc, dom] =>
      loc ≠ [] && loc.all emailChar && dom.all emailChar &&
        ((dom.drop 1).dropLast.contains '.')
  | _ => false

/-- The outcome of `validateForm`: the four error slots and the returned
validity flag. -/
structure RegResult where
  nameError : Option FieldIssue
  emailError : Option FieldIssue
  passwordError : Option FieldIssue
  confirmError : Option FieldIssue
  isValid : Bool
deriving DecidableEq, Repr

/-- `validateForm` of `RegisterScreen.tsx` (lines 42-91). -/
def validateForm (f : RegForm) : RegResult :=
  let nameErr := if trimStr f.nameT = [] then some FieldIssue.requiredEmpty else none
  let emailErr :=
    if f.email = [] then some FieldIssue.requiredEmpty
    else if emailOk f.email then none
    else some FieldIssue.badEmailFormat
  let pwErr :=
    if f.password = [] then some FieldIssue.requiredEmpty
    else if f.password.length < 6 then some FieldIssue.pwTooShort
    else none
  let confErr :=
    if f.confirmPassword = [] then some FieldIssue.confirmMissing
    else if f.password ≠ f.confirmPassword then some FieldIssue.pwMismatch
    else none
  { nameError := nameErr
    emailError := emailErr
    passwordError := pwErr
    confirmError := confErr
    isValid := nameErr.isNone && emailErr.isNone && pwErr.isNone && confErr.isNone }

/-! ## NotificationsScreen (`src/screens/NotificationsScreen.tsx`) -/

/-- The notification types of the screen's local interface. -/
inductive ScreenNotifType where
  | matchT
  | tradeT
  | systemT
deriving DecidableEq, Repr

/-- A notification row of the screen. -/
structure NotifItem where
  id : Str
  ntype : ScreenNotifType
  title : Str
  message : Str
  timestamp : Str
  read : Bool
deriving DecidableEq, Repr

/-- `markAsRead` (lines 60-68): set `read` on the row with the given id,
leave the rest unchanged. -/
def markAsRead (nid : Str) (l : List NotifItem) : List NotifItem :=
  l.map (fun n => if n.id = nid then { n with read := true } else n)

/-- `markAllAsRead` (lines 70-74): set `read` on every row. -/
def markAllAsRead (l : List NotifItem) : List NotifItem :=
  l.map (fun n => { n with read := true })

/-! ## tradeService.createTrade (`src/api/tradeService.ts`, lines 76-87) -/

/-- The wire shape of a trade in a server response; `matched` may be
absent. -/
structure TradeWire where
  id : Str
  offeredItemId : Str
  requestedItemId : Str
  initiatedBy : Str
  respondedBy : Str
  statusF : Str
  createdAt : Str
  updatedAt : Str
  matched : Option Bool
deriving DecidableEq, Repr

/-- The `TradeCreateResponse` returned by the client: the trade fields
plus a mandatory boolean `matched`. -/
structure TradeCreateRes where
  id : Str
  offeredItemId : Str
  requestedItemId : Str
  initiatedBy : Str
  respondedBy : Str
  statusF : Str
  createdAt : Str
  updatedAt : Str
  matched : Bool
deriving DecidableEq, Repr

/-- `createTrade` response shaping: spread the server data and force
`matched` to a boolean via `response.data.matched || false`. -/
def createTradeClient (r : TradeWire) : TradeCreateRes :=
  { id := r.id
    offeredItemId := r.offeredItemId
    requestedItemId := r.requestedItemId
    initiatedBy := r.initiatedBy
    respondedBy := r.respondedBy
    statusF := r.statusF
    createdAt := r.createdAt
    updatedAt := r.updatedAt
    matched := match r.matched with
      | some true => true
      | _ => false }

/-! ## SwipeScreen (`src/screens/SwipeScreen.tsx`) -/

/-- An API request the swipe handlers can issue. -/
inductive SwipeApiCall where
  | createTradeReq (offeredItemId requestedItemId : Str)
  | rejectTradeReq (tradeId : Str)
deriving DecidableEq, Repr

/-- A potential-trade card. -/
structure PotentialCard where
  cardId : Str
  itemId : Str
deriving DecidableEq, Repr

/-- The screen state read by the swipe handlers. -/
structure SwipeSt where
  selectedItemId : Option Str
  potentialTrades : List PotentialCard
  currentIndex : Nat
deriving DecidableEq, Repr

/-- `moveToNextCard` (lines 285-288): advance the card index. -/
def moveToNextCard (st : SwipeSt) : SwipeSt :=
  { st with currentIndex := st.currentIndex + 1 }

/-- `handleRejectTrade` (lines 281-283): it only advances to the next
card; no request is issued. -/
def handleRejectTrade (st : SwipeSt) : SwipeSt × List SwipeApiCall :=
  (moveToNextCard st, [])

/-- `swipeLeft` (lines 229-237): after the exit animation it runs
`handleRejectTrade`. -/
def swipeLeft (st : SwipeSt) : SwipeSt × List SwipeApiCall :=
  handleRejectTrade st

/-! ## Item lifecycle and trade workflow

The Express routers (`routes/trades.js`, `routes/items.js`) delegate to
controllers that are not part of the repository; only the Mongoose
models are.  The operations below are therefore modelled from the
specification, sections 4.2 (item lifecycle), 4.3 (propose / accept /
reject) and 6 (status-changing update restricted to the 4.2
transitions). -/

/-- The `Item.status` enum of `models/Item.js`. -/
inductive ItemStatus where
  | available
  | pending
  | traded
  | removed
deriving DecidableEq, Repr

/-- The `Trade.status` enum of `models/Trade.js`. -/
inductive TradeStatus where
  | pending
  | accepted
  | rejected
  | completed
deriving DecidableEq, Repr

/-- The `Notification.type` enum of `models/Notification.js`. -/
inductive NotifType where
  | matchT
  | tradeT
  | systemT
  | adminT
deriving DecidableEq, Repr

/-- The error taxonomy of spec section 7. -/
inductive WErr where
  | validationError
  | invalidStateError
  | authorizationError
  | conflictError
  | notFoundError
deriving DecidableEq, Repr

/-- Modelled from the spec: `proposeInvolvement` (section 4.2), allowed
only from `available`, moves to `pending`. -/
def proposeInvolvement : ItemStatus → Except WErr ItemStatus
  | .available => .ok .pending
  | _ => .error .invalidStateError

/-- Modelled from the spec: `complete` (section 4.2), allowed only from
`pending`, moves to `traded`. -/
def completeItem : ItemStatus → Except WErr ItemStatus
  | .pending => .ok .traded
  | _ => .error .invalidStateError

/-- Modelled from the spec: `release` (section 4.2), allowed from
`pending`, returns to `available`; a no-op when already `available`. -/
def releaseItem : ItemStatus → Except WErr ItemStatus
  | .pending => .ok .available
  | .available => .ok .available
  | _ => .error .invalidStateError

/-- Modelled from the spec: `remove` (section 4.2), allowed only from
`available`, moves to `removed`. -/
def removeItem : ItemStatus → Except WErr ItemStatus
  | .available => .ok .removed
  | _ => .error .invalidStateError

/-- Modelled from the spec: a status-changing item update (section 6 of
the spec restricts it to the section 4.2 transitions; the client's
`UpdateItemRequest` supplies the requested target status). -/
def updateItemStatus (target : ItemStatus) (st : ItemStatus) : Except WErr ItemStatus :=
  if target = st then .ok st
  else match st, target with
    | .available, .pending => .ok .pending
    | .pending, .traded => .ok .traded
    | .pending, .available => .ok .available
    | .available, .removed => .ok .removed
    | _, _ => .error .invalidStateError

/-- The operations of claim C2 on a single item's status. -/
inductive ItemOp where
  | involve
  | complete
  | release
  | remove
  | update (target : ItemStatus)
deriving DecidableEq, Repr

/-- One lifecycle operation; a failing operation leaves the status
unchanged (spec section 7: on failure, zero writes). -/
def stepItem (st : ItemStatus) (op : ItemOp) : ItemStatus :=
  let r := match op with
    | .involve => proposeInvolvement st
    | .complete => completeItem st
    | .release => releaseItem st
    | .remove => removeItem st
    | .update t => updateItemStatus t st
  match r with
  | .ok st2 => st2
  | .error _ => st

/-- A sequence of lifecycle operations. -/
def runItem (st : ItemStatus) (ops : List ItemOp) : ItemStatus :=
  ops.foldl stepItem st

/-- An edge of the item-status path of spec section 3: a self-loop, the
forward moves `available → pending → traded` and `available → removed`,
or the `release` return `pending → available`. -/
def PathEdge (a b : ItemStatus) : Prop :=
  a = b ∨
  (a = .available ∧ b = .pending) ∨
  (a = .pending ∧ b = .traded) ∨
  (a = .pending ∧ b = .available) ∨
  (a = .available ∧ b = .removed)

/-- A user record (id and `stats.trades`; the other stats are carried
along). -/
structure UserR where
  uid : Nat
  tradesCount : Nat
  listings : Nat
  xp : Nat
deriving DecidableEq, Repr

/-- An item record (the fields the workflow reads). -/
structure ItemR where
  iid : Nat
  owner : Nat
  status : ItemStatus
deriving DecidableEq, Repr

/-- A trade record, after `models/Trade.js`. -/
structure TradeR where
  tid : Nat
  offeredItem : Nat
  requestedItem : Nat
  initiatedBy : Nat
  respondedBy : Nat
  status : TradeStatus
deriving DecidableEq, Repr

/-- A notification record, after `models/Notification.js`. -/
structure NotifR where
  nid : Nat
  userN : Nat
  ntype : NotifType
  relatedTrade : Option Nat
  read : Bool
deriving DecidableEq, Repr

/-- The persistent state the workflow operates on. -/
structure WState where
  users : List UserR
  items : List ItemR
  trades : List TradeR
  notifs : List NotifR
  nextId : Nat
deriving DecidableEq, Repr

/-- Resolve an item id. -/
def findItem (s : WState) (i : Nat) : Option ItemR :=
  s.items.find? (fun it => it.iid == i)

/-- The reciprocal-pair test of the match check (spec section 4.3): a
pending trade offering this proposal's requested item and requesting its
offered item. -/
def isReciprocal (offId reqId : Nat) (t : TradeR) : Bool :=
  t.offeredItem == reqId && t.requestedItem == offId && t.status == TradeStatus.pending

/-- The duplicate test of the ConflictError guard (spec section 4.3): a
pending trade with the same offered item, requested item and initiator. -/
def isIdentical (offId reqId initr : Nat) (t : TradeR) : Bool :=
  t.offeredItem == offId && t.requestedItem == reqId &&
    t.initiatedBy == initr && t.status == TradeStatus.pending

/-- Set the status of the item with the given id. -/
def setItemStatus (items : List ItemR) (i : Nat) (st : ItemStatus) : List ItemR :=
  items.map (fun it => if it.iid == i then { it with status := st } else it)

/-- Increment `stats.trades` of the user with the given id. -/
def bumpTrades (us : List UserR) (u : Nat) : List UserR :=
  us.map (fun x => if x.uid == u then { x with tradesCount := x.tradesCount + 1 } else x)

/-- Decidable equality for `Except`, so that workflow outcomes can be
checked on concrete states. -/
instance {ε α : Type} [DecidableEq ε] [DecidableEq α] : DecidableEq (Except ε α) := fun a b =>
  match a, b with
  | .error e1, .error e2 =>
    if h : e1 = e2 then isTrue (by rw [h])
    else isFalse (fun hc => h (Except.error.inj hc))
  | .ok v1, .ok v2 =>
    if h : v1 = v2 then isTrue (by rw [h])
    else isFalse (fun hc => h (Except.ok.inj hc))
  | .error _, .ok _ => isFalse (fun hc => Except.noConfusion hc)
  | .ok _, .error _ => isFalse (fun hc => Except.noConfusion hc)

/-- The value returned by a successful `propose`. -/
structure ProposeOk where
  trade : TradeR
  matched : Bool
  state : WState
deriving DecidableEq, Repr

/-- The trade record created by `propose`. -/
def newTradeOf (s : WState) (offId reqId initr respBy : Nat) (st : TradeStatus) : TradeR :=
  { tid := s.nextId, offeredItem := offId, requestedItem := reqId,
    initiatedBy := initr, respondedBy := respBy, status := st }

/-- The state after a matched `propose`: the reciprocal trade turns
`accepted`, the new trade is appended `accepted`, both items turn
`traded`, both initiators' `stats.trades` increment, and one `match`
notification is created per party. -/
def matchSucc (s : WState) (offId reqId initr respBy : Nat) (recip : TradeR) : WState :=
  { users := bumpTrades (bumpTrades s.users initr) recip.initiatedBy
    items := setItemStatus (setItemStatus s.items offId .traded) reqId .traded
    trades :=
      (s.trades.map (fun t =>
        if t.tid == recip.tid then { t with status := TradeStatus.accepted } else t))
        ++ [newTradeOf s offId reqId initr respBy .accepted]
    notifs := s.notifs ++
      [ { nid := s.nextId + 1, userN := initr, ntype := .matchT,
          relatedTrade := some s.nextId, read := false },
        { nid := s.nextId + 2, userN := respBy, ntype := .matchT,
          relatedTrade := some s.nextId, read := false } ]
    nextId := s.nextId + 3 }

/-- The state after an unmatched `propose`: the new trade is appended
`pending`, the offered item turns `pending`, and the requested item's
owner gets a `trade` notification. -/
def nomatchSucc (s : WState) (offId reqId initr respBy : Nat) : WState :=
  { users := s.users
    items := setItemStatus s.items offId .pending
    trades := s.trades ++ [newTradeOf s offId reqId initr respBy .pending]
    notifs := s.notifs ++
      [ { nid := s.nextId + 1, userN := respBy, ntype := .tradeT,
          relatedTrade := some s.nextId, read := false } ]
    nextId := s.nextId + 2 }

/-- Modelled from the spec: `propose(offeredItemId, requestedItemId,
initiator)` (section 4.3).  Validation: the offered item is owned by the
initiator, no self-trade, a duplicate identical pending trade is a
`ConflictError`, the offered item must be `available`.  If a reciprocal
pending trade exists, both trades end `accepted`, both items `traded`,
both initiators' `stats.trades` increment, and one `match` notification
is created per party; otherwise a new pending trade is created, the
offered item moves to `pending`, and the requested item's owner gets a
`trade` notification.  (In the match case the requested item is
`pending` — it was moved there by the reciprocal proposal — which is
what lets the two proposals meet; spec section 8, scenario 2.) -/
def propose (s : WState) (offId reqId initr : Nat) : Except WErr ProposeOk :=
  match findItem s offId, findItem s reqId with
  | some off, some req =>
    if off.owner = initr then
      if req.owner = initr then .error .validationError
      else if s.trades.any (isIdentical offId reqId initr) then .error .conflictError
      else if off.status = .available then
        match s.trades.find? (isReciprocal offId reqId) with
        | some recip =>
          .ok { trade := newTradeOf s offId reqId initr req.owner .accepted,
                matched := true,
                state := matchSucc s offId reqId initr req.owner recip }
        | none =>
          if req.status = .available then
            .ok { trade := newTradeOf s offId reqId initr req.owner .pending,
                  matched := false,
                  state := nomatchSucc s offId reqId initr req.owner }
          else .error .invalidStateError
      else .error .invalidStateError
    else .error .validationError
  | _, _ => .error .notFoundError

/-- Modelled from the spec: `accept(tradeId, responder)` (section 4.3):
only the responder may accept a pending trade; both items complete to
`traded` and the initiator is notified. -/
def acceptTrade (s : WState) (tradeId responder : Nat) : Except WErr WState :=
  match s.trades.find? (fun t => t.tid == tradeId) with
  | none => .error .notFoundError
  | some t =>
    if t.respondedBy = responder then
      if t.status = .pending then
        .ok { s with
          trades := s.trades.map (fun u =>
            if u.tid == tradeId then { u with status := TradeStatus.accepted } else u)
          items := setItemStatus (setItemStatus s.items t.offeredItem .traded) t.requestedItem .traded
          notifs := s.notifs ++
            [ { nid := s.nextId, userN := t.initiatedBy, ntype := .tradeT,
                relatedTrade := some t.tid, read := false } ]
          nextId := s.nextId + 1 }
      else .error .invalidStateError
    else .error .authorizationError

/-- Modelled from the spec: `reject(tradeId, responder)` (section 4.3):
only the responder may reject a pending trade; the offered item is
released back to `available`. -/
def rejectTrade (s : WState) (tradeId responder : Nat) : Except WErr WState :=
  match s.trades.find? (fun t => t.tid == tradeId) with
  | none => .error .notFoundError
  | some t =>
    if t.respondedBy = responder then
      if t.status = .pending then
        .ok { s with
          trades := s.trades.map (fun u =>
            if u.tid == tradeId then { u with status := TradeStatus.rejected } else u)
          items := setItemStatus s.items t.offeredItem .available }
      else .error .invalidStateError
    else .error .authorizationError

/-- A workflow request. -/
inductive WOp where
  | proposeOp (offId reqId initr : Nat)
  | acceptOp (tradeId responder : Nat)
  | rejectOp (tradeId responder : Nat)
deriving DecidableEq, Repr

/-- Apply one workflow request; a failed request performs zero writes
(spec section 7). -/
def applyOp (s : WState) (op : WOp) : WState :=
  match op with
  | .proposeOp offId reqId initr =>
    match propose s offId reqId initr with
    | .ok r => r.state
    | .error _ => s
  | .acceptOp tradeId responder =>
    match acceptTrade s tradeId responder with
    | .ok s2 => s2
    | .error _ => s
  | .rejectOp tradeId responder =>
    match rejectTrade s tradeId responder with
    | .ok s2 => s2
    | .error _ => s

/-- An execution: a sequence of workflow requests. -/
def runOps (s : WState) (ops : List WOp) : WState :=
  ops.foldl applyOp s

/-- Any two items that share an id agree on their owner (item ownership
is immutable, spec section 3). -/
def OwnerCoherent (s : WState) : Prop :=
  ∀ a ∈ s.items, ∀ b ∈ s.items, a.iid = b.iid → a.owner = b.owner

/-- Every pending trade was initiated by the owner of its offered item
(spec section 3: `offeredItem.owner == initiatedBy`). -/
def InitMatchesOwner (s : WState) : Prop :=
  ∀ t ∈ s.trades, t.status = TradeStatus.pending →
    ∀ it ∈ s.items, it.iid = t.offeredItem → t.initiatedBy = it.owner

/-- A pending trade for the given (offeredItem, requestedItem) pair. -/
def pendingFor (offId reqId : Nat) (t : TradeR) : Bool :=
  t.offeredItem == offId && t.requestedItem == reqId && t.status == TradeStatus.pending

/-- At most one pending trade per (offeredItem, requestedItem) pair. -/
def PairUnique (s : WState) : Prop :=
  ∀ offId reqId, s.trades.countP (pendingFor offId reqId) ≤ 1

/-- The workflow invariant: ownership is coherent, pending trades were
initiated by the offered item's owner, and pending trades are unique
per item pair. -/
def WInv (s : WState) : Prop :=
  OwnerCoherent s ∧ InitMatchesOwner s ∧ PairUnique s

/-- `stats.trades` of the user with the given id (0 when absent). -/
def userTrades (s : WState) (u : Nat) : Nat :=
  match s.users.find? (fun x => x.uid == u) with
  | some x => x.tradesCount
  | none => 0

/-- The number of `match` notifications addressed to the given user. -/
def matchNotifCount (s : WState) (u : Nat) : Nat :=
  s.notifs.countP (fun n => n.userN == u && n.ntype == NotifType.matchT)

/-! ## Concrete instances used by counterexamples and witnesses -/

/-- A valid submission form carrying exactly 3 images. -/
def threeImageForm : SubmitForm :=
  { nameT := str "Lamp", description := str "A desk lamp", category := str "Home",
    condition := str "Good", images := [str "a.jpg", str "b.jpg", str "c.jpg"] }

/-- A submission form, valid in every field, carrying 4 images (reachable
through `handleTakePhoto`, which does not cap the image count). -/
def fourImageForm : SubmitForm :=
  { nameT := str "Lamp", description := str "A desk lamp", category := str "Home",
    condition := str "Good", images := [str "a.jpg", str "b.jpg", str "c.jpg", str "d.jpg"] }

/-- A swipe-screen state showing one potential-trade card. -/
def swipeExState : SwipeSt :=
  { selectedItemId := some (str "10"), potentialTrades := [{ cardId := str "201", itemId := str "101" }],
    currentIndex := 0 }

/-- Two users, two available items, no trades: the state before any
proposal. -/
def freshState : WState :=
  { users := [{ uid := 1, tradesCount := 0, listings := 0, xp := 0 },
              { uid := 2, tradesCount := 0, listings := 0, xp := 0 }]
    items := [{ iid := 10, owner := 1, status := .available },
              { iid := 11, owner := 2, status := .available }]
    trades := [], notifs := [], nextId := 100 }

/-- The state with a reciprocal pending proposal already present: user 2
has proposed item 11 for item 10, so item 11 is `pending`. -/
def reciprocalState : WState :=
  { users := [{ uid := 1, tradesCount := 0, listings := 0, xp := 0 },
              { uid := 2, tradesCount := 0, listings := 0, xp := 0 }]
    items := [{ iid := 10, owner := 1, status := .available },
              { iid := 11, owner := 2, status := .pending }]
    trades := [{ tid := 100, offeredItem := 11, requestedItem := 10,
                 initiatedBy := 2, respondedBy := 1, status := .pending }]
    notifs := [], nextId := 200 }

/-- The general reciprocal scenario of spec section 8, scenario 2: users
A and B, A's item (available), B's item (pending because B already
proposed it), and B's pending trade offering itemB for itemA. -/
def c1State (aId bId iaId ibId tId n0 ta tb la lb xa xb : Nat) : WState :=
  { users := [{ uid := aId, tradesCount := ta, listings := la, xp := xa },
              { uid := bId, tradesCount := tb, listings := lb, xp := xb }]
    items := [{ iid := iaId, owner := aId, status := .available },
              { iid := ibId, owner := bId, status := .pending }]
    trades := [{ tid := tId, offeredItem := ibId, requestedItem := iaId,
                 initiatedBy := bId, respondedBy := aId, status := .pending }]
    notifs := [], nextId := n0 }

/-- The reciprocal pending trade of `c1State`. -/
def c1Recip (tId ibId iaId bId aId : Nat) : TradeR :=
  { tid := tId, offeredItem := ibId, requestedItem := iaId,
    initiatedBy := bId, respondedBy := aId, status := .pending }

/-! # Theorems -/

/-! ## Shared helper lemmas -/

theorem stepItem_traded (op : ItemOp) : stepItem .traded op = .traded := by
  cases op with
  | update t => cases t <;> rfl
  | _ => rfl

theorem stepItem_removed (op : ItemOp) : stepItem .removed op = .removed := by
  cases op with
  | update t => cases t <;> rfl
  | _ => rfl

/-- C2: for every item and every sequence of the operations
proposeInvolvement, complete, release, remove and status-changing item
update, the status only moves along the path
`available → pending → traded` / `available → removed` (with release's
return `pending → available` inside the same path), and an item that is
`traded` or `removed` never leaves that state — in particular it can
never be re-offered in a trade. -/
theorem itemStatus_one_directional :
    (∀ (st : ItemStatus) (op : ItemOp), PathEdge st (stepItem st op))
    ∧ (∀ ops : List ItemOp, runItem .traded ops = .traded)
    ∧ (∀ ops : List ItemOp, runItem .removed ops = .removed)
    ∧ proposeInvolvement .traded = .error .invalidStateError
    ∧ proposeInvolvement .removed = .error .invalidStateError := by
  refine ⟨?_, ?_, ?_, rfl, rfl⟩
  · intro st op
    cases st <;> cases op <;>
      first
        | (rename_i t; cases t <;> simp [stepItem, proposeInvolvement, completeItem,
            releaseItem, removeItem, updateItemStatus, PathEdge])
        | simp [stepItem, proposeInvolvement, completeItem, releaseItem,
            removeItem, updateItemStatus, PathEdge]
  · intro ops
    induction ops with
    | nil => rfl
    | cons op t ih => simpa [runItem, List.foldl, stepItem_traded] using ih
  · intro ops
    induction ops with
    | nil => rfl
    | cons op t ih => simpa [runItem, List.foldl, stepItem_removed] using ih

/-- C4 counterexample: a form that is valid in every other field but
carries 4 images passes `handleSubmit`'s validation, contradicting the
claim that every 4-image input fails creation validation. -/
theorem fourImages_pass_validation :
    fourImageForm.images.length = 4 ∧ submitValidation fourImageForm = none := by
  decide

/-- C4 (amended): creation validation fails on every 0-image form and
succeeds on the valid 3-image form, but a 4-image form also passes
validation; the 3-image cap is enforced only by the library picker
(whose result never exceeds 3 images), while the camera handler appends
without a cap. -/
theorem submit_image_boundaries :
    (∀ f : SubmitForm, f.images = [] → submitValidation f ≠ none)
    ∧ (threeImageForm.images.length = 3 ∧ submitValidation threeImageForm = none)
    ∧ (∀ cur new : List Str, (addLibraryImages cur new).length ≤ 3)
    ∧ (∀ cur new : List Str, addCameraImages cur new = cur ++ new) := by
  refine ⟨?_, by decide, ?_, fun cur new => rfl⟩
  · intro f hf
    simp only [submitValidation, hf, List.length_nil]
    split
    · simp
    · split
      · simp
      · split
        · simp
        · split
          · simp
          · simp
  · intro cur new
    show (if (cur ++ new).length > 3 then List.take 3 (cur ++ new) else cur ++ new).length ≤ 3
    split
    · simp
    · rename_i h
      exact Nat.le_of_not_lt h


/-- C5 counterexample: on a state showing a card, the swipe-left handler
issues no API request at all (in particular no reject request) — it only
advances the card index — so the pending trade named by the claim is
never transitioned to `rejected` by a swipe-left. -/
theorem swipeLeft_issues_no_request :
    (swipeLeft swipeExState).2 = []
    ∧ (swipeLeft swipeExState).1 = { swipeExState with currentIndex := 1 } := by
  decide

/-- C5 (amended): the swipe-left gesture does not perform the reject
operation; `handleRejectTrade` only advances `currentIndex` by one,
leaves the card list and selection unchanged, and issues no API call
(`tradeService.rejectTrade` is never invoked from the swipe flow). -/
theorem swipeLeft_only_advances :
    ∀ st : SwipeSt,
      (swipeLeft st).2 = []
      ∧ (swipeLeft st).1.currentIndex = st.currentIndex + 1
      ∧ (swipeLeft st).1.potentialTrades = st.potentialTrades
      ∧ (swipeLeft st).1.selectedItemId = st.selectedItemId := by
  intro st
  exact ⟨rfl, rfl, rfl, rfl⟩

/-- C6: `createTrade` returns the server's trade fields together with a
boolean `matched`; when the wire response omits `matched`, the result
has `matched = false`. -/
theorem createTrade_matched_defaults :
    (∀ r : TradeWire,
      (createTradeClient r).id = r.id
      ∧ (createTradeClient r).offeredItemId = r.offeredItemId
      ∧ (createTradeClient r).requestedItemId = r.requestedItemId
      ∧ (createTradeClient r).initiatedBy = r.initiatedBy
      ∧ (createTradeClient r).respondedBy = r.respondedBy
      ∧ (createTradeClient r).statusF = r.statusF)
    ∧ (∀ r : TradeWire, r.matched = none → (createTradeClient r).matched = false)
    ∧ (∀ r : TradeWire, r.matched = some false → (createTradeClient r).matched = false)
    ∧ (∀ r : TradeWire, r.matched = some true → (createTradeClient r).matched = true) := by
  refine ⟨fun r => ⟨rfl, rfl, rfl, rfl, rfl, rfl⟩, ?_, ?_, ?_⟩ <;>
    (intro r h; simp [createTradeClient, h])

/-- C6 witness: the defaulting conjunct applied to a concrete wire
response without a `matched` field. -/
theorem createTrade_matched_defaults_witness :
    (createTradeClient
      { id := str "t1", offeredItemId := str "10", requestedItemId := str "11",
        initiatedBy := str "1", respondedBy := str "2", statusF := str "pending",
        createdAt := str "c", updatedAt := str "u", matched := none }).matched = false :=
  createTrade_matched_defaults.2.1 _ rfl

/-- C7: registration validation marks the form invalid whenever the
password is shorter than 6 characters (the empty password trips the
required-field rule, shorter non-empty ones the length rule), and sets
no password error at all for passwords of length 6 or more. -/
theorem password_length_rule :
    (∀ f : RegForm, f.password.length < 6 → (validateForm f).isValid = false)
    ∧ (∀ f : RegForm, 6 ≤ f.password.length → (validateForm f).passwordError = none) := by
  constructor
  · intro f h
    have hpw : (if f.password = [] then some FieldIssue.requiredEmpty
        else if f.password.length < 6 then some FieldIssue.pwTooShort else none).isNone = false := by
      by_cases he : f.password = []
      · rw [if_pos he]
        rfl
      · rw [if_neg he, if_pos h]
        rfl
    simp only [validateForm, hpw, Bool.and_false, Bool.false_and]
  · intro f h
    have hne : f.password ≠ [] := by
      intro he
      rw [he] at h
      simp at h
    simp only [validateForm, if_neg hne, if_neg (Nat.not_lt.mpr h)]

/-- C7 witness: the first conjunct at a 5-character password, the second
at a 6-character password. -/
theorem password_length_rule_witness :
    (validateForm
      { nameT := str "Ted", email := str "ted@example.com",
        password := str "abcde", confirmPassword := str "abcde" }).isValid = false
    ∧ (validateForm
      { nameT := str "Ted", email := str "ted@example.com",
        password := str "abcdef", confirmPassword := str "abcdef" }).passwordError = none :=
  ⟨password_length_rule.1 _ (by decide), password_length_rule.2 _ (by decide)⟩

/-- C10: `getUserItems` returns one transformed item per element when
the body is an array, one per element of the nested `items` array when
the body is an object carrying one, and the empty list for every other
body shape. -/
theorem getUserItems_shape_dispatch :
    ∀ now : Str,
      (∀ xs, getUserItems now (.arr xs) = xs.map (transformUserItem now))
      ∧ (∀ xs, (getUserItems now (.arr xs)).length = xs.length)
      ∧ (∀ xs, getUserItems now (.objWithItems xs) = xs.map (transformUserItem now))
      ∧ (∀ xs, (getUserItems now (.objWithItems xs)).length = xs.length)
      ∧ getUserItems now .objOther = []
      ∧ getUserItems now .nonObject = [] := by
  intro now
  refine ⟨fun xs => rfl, fun xs => ?_, fun xs => rfl, fun xs => ?_, rfl, rfl⟩ <;>
    simp [getUserItems]

theorem markAsRead_length (nid : Str) (l : List NotifItem) :
    (markAsRead nid l).length = l.length := by
  simp [markAsRead]

/-- C8: `read` is monotonic under `markAsRead` (a row that was read
stays read), `markAllAsRead` marks every row read, and `markAllAsRead`
is a no-op when no row is unread. -/
theorem notification_read_monotone :
    (∀ (nid : Str) (l : List NotifItem) (i : Nat) (h1 : i < l.length)
        (h2 : i < (markAsRead nid l).length),
      (l.get ⟨i, h1⟩).read = true → ((markAsRead nid l).get ⟨i, h2⟩).read = true)
    ∧ (∀ (l : List NotifItem) (i : Nat) (h : i < (markAllAsRead l).length),
        ((markAllAsRead l).get ⟨i, h⟩).read = true)
    ∧ (∀ l : List NotifItem, (∀ n ∈ l, n.read = true) → markAllAsRead l = l) := by
  refine ⟨?_, ?_, ?_⟩
  · intro nid l i h1 h2 hr
    simp only [markAsRead, List.get_eq_getElem, List.getElem_map]
    split
    · rfl
    · simpa using hr
  · intro l i h
    simp [markAllAsRead]
  · intro l hall
    induction l with
    | nil => rfl
    | cons n t ih =>
      have hn : n.read = true := hall n (by simp)
      have ht := ih (fun m hm => hall m (by simp [hm]))
      simp only [markAllAsRead, List.map_cons] at ht ⊢
      rw [ht]
      cases n with
      | mk id ntype title message timestamp read =>
        simp at hn
        simp [hn]

/-- C8 witness: monotonicity and the no-op applied to a concrete
two-row list (one read, one unread). -/
theorem notification_read_monotone_witness :
    ((markAsRead (str "1")
        [ { id := str "1", ntype := .matchT, title := str "t", message := str "m",
            timestamp := str "now", read := false },
          { id := str "2", ntype := .systemT, title := str "s", message := str "w",
            timestamp := str "now", read := true } ]).get ⟨1, by decide⟩).read = true
    ∧ markAllAsRead
        [ { id := str "3", ntype := .tradeT, title := str "t", message := str "m",
            timestamp := str "now", read := true } ]
      = [ { id := str "3", ntype := .tradeT, title := str "t", message := str "m",
            timestamp := str "now", read := true } ] :=
  ⟨notification_read_monotone.1 (str "1") _ 1 (by decide) (by decide) (by decide),
   notification_read_monotone.2.2 _ (by decide)⟩

theorem leadsWith_append (p q x : Str) (h : leadsWith p q = true) :
    leadsWith p (q ++ x) = true := by
  induction p generalizing q with
  | nil => rfl
  | cons a ps ih =>
    cases q with
    | nil => simp [leadsWith] at h
    | cons b t =>
      simp only [leadsWith, Bool.and_eq_true] at h
      simp only [List.cons_append, leadsWith, Bool.and_eq_true]
      exact ⟨h.1, ih t h.2⟩

theorem leadsWith_refl (p : Str) : leadsWith p p = true := by
  induction p with
  | nil => rfl
  | cons a ps ih => simp [leadsWith, ih]

theorem leadsWith_self_append (p x : Str) : leadsWith p (p ++ x) = true :=
  leadsWith_append p p x (leadsWith_refl p)

theorem hasSub_append_left (pat l r : Str) (h : hasSub pat r = true) :
    hasSub pat (l ++ r) = true := by
  induction l with
  | nil => simpa using h
  | cons c t ih => simp [hasSub, ih]

theorem hasSub_dropLeadSlashes (u : Str) (h : hasSub s3pat u = true) :
    hasSub s3pat (dropLeadSlashes u) = true := by
  induction u with
  | nil => simpa [dropLeadSlashes] using h
  | cons c t ih =>
    by_cases hc : c = '/'
    · subst hc
      have hlw : leadsWith s3pat ('/' :: t) = false := by
        show leadsWith ('s' :: str "3.amazonaws.com") ('/' :: t) = false
        simp [leadsWith]
      simp only [hasSub, hlw, Bool.false_or] at h
      have hdrop : dropLeadSlashes ('/' :: t) = dropLeadSlashes t := by
        simp [dropLeadSlashes, List.dropWhile]
      rw [hdrop]
      exact ih h
    · have hcb : (c == '/') = false := by
        simp [hc]
      have hdrop : dropLeadSlashes (c :: t) = c :: t := by
        simp [dropLeadSlashes, List.dropWhile, hcb]
      rw [hdrop]
      exact h

theorem urlItem_fixes_catMap (k : Str) :
    ensureAbsoluteImageUrlItem (catMap k) = catMap k := by
  unfold catMap
  split
  · decide
  · split
    · decide
    · split
      · decide
      · split
        · decide
        · split
          · decide
          · decide

theorem urlItem_idem (u : Str) :
    ensureAbsoluteImageUrlItem (ensureAbsoluteImageUrlItem u) = ensureAbsoluteImageUrlItem u := by
  by_cases h0 : u = []
  · subst h0
    decide
  · by_cases h1 : hasSub s3pat u = true
    · by_cases h2 : leadsWith (str "http") u = true
      · have hu : ensureAbsoluteImageUrlItem u = u := by
          unfold ensureAbsoluteImageUrlItem
          rw [if_neg h0, if_pos h1, if_pos h2]
        rw [hu]
        exact hu
      · have hu : ensureAbsoluteImageUrlItem u = str "https://" ++ dropLeadSlashes u := by
          unfold ensureAbsoluteImageUrlItem
          rw [if_neg h0, if_pos h1, if_neg h2]
        rw [hu]
        have hne : ¬ (str "https://" ++ dropLeadSlashes u = []) := by
          rw [List.append_eq_nil]
          intro hcon
          exact absurd hcon.1 (by decide)
        have hs : hasSub s3pat (str "https://" ++ dropLeadSlashes u) = true :=
          hasSub_append_left s3pat _ _ (hasSub_dropLeadSlashes u h1)
        have hh : leadsWith (str "http") (str "https://" ++ dropLeadSlashes u) = true :=
          leadsWith_append _ _ _ (by decide)
        unfold ensureAbsoluteImageUrlItem
        rw [if_neg hne, if_pos hs, if_pos hh]
    · by_cases h3 : (leadsWith (str "http://") u || leadsWith (str "https://") u) = true
      · have hu : ensureAbsoluteImageUrlItem u = u := by
          unfold ensureAbsoluteImageUrlItem
          rw [if_neg h0, if_neg h1, if_pos h3]
        rw [hu]
        exact hu
      · have hu : ensureAbsoluteImageUrlItem u
            = catMap (pickCat (toLowerStr (lastSegAny u))) := by
          unfold ensureAbsoluteImageUrlItem
          rw [if_neg h0, if_neg h1, if_neg h3]
        rw [hu]
        exact urlItem_fixes_catMap _

theorem not_mem_of_contains_false {l : Str} {a : Char} (h : l.contains a = false) :
    a ∉ l := by
  intro hm
  rw [List.contains_eq_any_beq] at h
  simp [List.any_eq_true] at h
  exact h a hm rfl

theorem contains_false_of_not_mem {l : Str} {a : Char} (h : a ∉ l) :
    l.contains a = false := by
  rw [List.contains_eq_any_beq]
  simp [List.any_eq_false]
  intro b hb hba
  exact h (hba ▸ hb)

theorem takeWhile_all_append (p : Char → Bool) (l : Str) (x : Char) (r : Str)
    (hl : ∀ a ∈ l, p a = true) (hx : p x = false) :
    List.takeWhile p (l ++ x :: r) = l := by
  induction l with
  | nil => simp [List.takeWhile_cons, hx]
  | cons a t ih =>
    have ha := hl a (by simp)
    simp only [List.cons_append, List.takeWhile_cons, ha, if_true]
    rw [ih (fun b hb => hl b (by simp [hb]))]

theorem lastSegSlash_proxy (fn : Str) (h : fn.contains '/' = false) :
    lastSegSlash (proxyU ++ '/' :: fn) = fn := by
  unfold lastSegSlash
  rw [List.reverse_append, List.reverse_cons, List.append_assoc, List.singleton_append]
  rw [takeWhile_all_append _ _ _ _ ?_ (by decide)]
  · exact List.reverse_reverse fn
  · intro a ha
    rw [List.mem_reverse] at ha
    have hne : a ≠ '/' := fun hc => not_mem_of_contains_false h (hc ▸ ha)
    simp [hne]

theorem lastSegSlash_no_slash (u : Str) : (lastSegSlash u).contains '/' = false := by
  apply contains_false_of_not_mem
  intro hm
  unfold lastSegSlash at hm
  rw [List.mem_reverse] at hm
  have := List.mem_takeWhile_imp hm
  simp at this

theorem lastSegAny_no_slash (u : Str) : (lastSegAny u).contains '/' = false := by
  apply contains_false_of_not_mem
  intro hm
  unfold lastSegAny at hm
  rw [List.mem_reverse] at hm
  have := List.mem_takeWhile_imp hm
  simp at this

theorem stripImagesLead_no_slash {s : Str} (h : s.contains '/' = false) :
    (stripImagesLead s).contains '/' = false := by
  apply contains_false_of_not_mem
  unfold stripImagesLead
  split
  · intro hm
    exact not_mem_of_contains_false h (List.drop_subset 7 s hm)
  · exact not_mem_of_contains_false h

theorem proxy_cons_ne_nil (fn : Str) : ¬ (proxyU ++ '/' :: fn = []) := by
  rw [List.append_eq_nil]
  intro hcon
  exact absurd hcon.2 (by simp)

theorem urlTrade_on_proxy_shape (fn : Str) (h : fn.contains '/' = false) :
    ensureAbsoluteImageUrlTrade (proxyU ++ '/' :: fn)
      = proxyU ++ '/' :: stripImagesLead fn := by
  unfold ensureAbsoluteImageUrlTrade
  rw [if_neg (proxy_cons_ne_nil fn), if_pos (leadsWith_self_append proxyU ('/' :: fn)),
    lastSegSlash_proxy fn h]

theorem urlTrade_output_shape (u : Str) :
    ensureAbsoluteImageUrlTrade u = []
    ∨ ∃ fn, ensureAbsoluteImageUrlTrade u = proxyU ++ '/' :: fn
        ∧ fn.contains '/' = false := by
  by_cases h0 : u = []
  · left
    rw [h0]
    rfl
  · by_cases h1 : leadsWith proxyU u = true
    · right
      refine ⟨stripImagesLead (lastSegSlash u), ?_, stripImagesLead_no_slash (lastSegSlash_no_slash u)⟩
      unfold ensureAbsoluteImageUrlTrade
      rw [if_neg h0, if_pos h1]
    · by_cases h2 : hasSub s3pat u = true
      · by_cases h3 : stripImagesLead (lastSegAny u) = []
        · left
          unfold ensureAbsoluteImageUrlTrade
          rw [if_neg h0, if_neg h1, if_pos h2, if_pos h3]
        · right
          refine ⟨stripImagesLead (lastSegAny u), ?_, stripImagesLead_no_slash (lastSegAny_no_slash u)⟩
          unfold ensureAbsoluteImageUrlTrade
          rw [if_neg h0, if_neg h1, if_pos h2, if_neg h3]
      · by_cases h4 : (!(u.contains '/' || u.contains '\\')) = true
        · right
          refine ⟨stripImagesLead u, ?_, ?_⟩
          · unfold ensureAbsoluteImageUrlTrade
            rw [if_neg h0, if_neg h1, if_neg h2, if_pos h4]
          · have hu : u.contains '/' = false := by
              simp only [Bool.not_eq_true', Bool.or_eq_false_iff] at h4
              exact h4.1
            exact stripImagesLead_no_slash hu
        · by_cases h5 : stripImagesLead (lastSegAny u) = []
          · left
            unfold ensureAbsoluteImageUrlTrade
            rw [if_neg h0, if_neg h1, if_neg h2, if_neg h4, if_pos h5]
          · right
            refine ⟨stripImagesLead (lastSegAny u), ?_, stripImagesLead_no_slash (lastSegAny_no_slash u)⟩
            unfold ensureAbsoluteImageUrlTrade
            rw [if_neg h0, if_neg h1, if_neg h2, if_neg h4, if_neg h5]

/-- C9 counterexample: the tradeService variant is not idempotent — the
input `images-images-a.jpg` maps to `…/api/images/images-a.jpg`, and a
second application strips the surviving `images-` again, giving
`…/api/images/a.jpg`. -/
theorem urlTrade_not_idempotent :
    ensureAbsoluteImageUrlTrade (ensureAbsoluteImageUrlTrade (str "images-images-a.jpg"))
      ≠ ensureAbsoluteImageUrlTrade (str "images-images-a.jpg") := by
  decide

theorem leadsWith_length (p s : Str) (h : leadsWith p s = true) :
    p.length ≤ s.length := by
  induction p generalizing s with
  | nil => simp
  | cons a ps ih =>
    cases s with
    | nil => simp [leadsWith] at h
    | cons b t =>
      simp only [leadsWith, Bool.and_eq_true] at h
      simpa [List.length_cons] using Nat.succ_le_succ (ih t h.2)

/-- C9 (amended): both variants are total and map the empty string to
itself; the itemService variant is idempotent on every input; the
tradeService variant is not idempotent (`images-images-a.jpg` is a
counterexample).  In detail, every tradeService output is either the
empty string (a fixed point) or a proxy URL `IMAGE_PROXY_URL/<fn>` with
`fn` slash-free, and a second application is the identity exactly when
that `fn` does not itself start with `images-`. -/
theorem url_helpers_idempotence :
    (∀ u : Str, ensureAbsoluteImageUrlItem (ensureAbsoluteImageUrlItem u)
        = ensureAbsoluteImageUrlItem u)
    ∧ ensureAbsoluteImageUrlItem [] = []
    ∧ ensureAbsoluteImageUrlTrade [] = []
    ∧ (∀ u : Str, ensureAbsoluteImageUrlTrade u = []
        ∨ ∃ fn, ensureAbsoluteImageUrlTrade u = proxyU ++ '/' :: fn
            ∧ fn.contains '/' = false)
    ∧ (∀ u : Str, ensureAbsoluteImageUrlTrade u = [] →
        ensureAbsoluteImageUrlTrade (ensureAbsoluteImageUrlTrade u)
          = ensureAbsoluteImageUrlTrade u)
    ∧ (∀ (u fn : Str), ensureAbsoluteImageUrlTrade u = proxyU ++ '/' :: fn →
        fn.contains '/' = false →
        (ensureAbsoluteImageUrlTrade (ensureAbsoluteImageUrlTrade u)
            = ensureAbsoluteImageUrlTrade u
          ↔ leadsWith (str "images-") fn = false))
    ∧ ensureAbsoluteImageUrlTrade (ensureAbsoluteImageUrlTrade (str "images-images-a.jpg"))
        ≠ ensureAbsoluteImageUrlTrade (str "images-images-a.jpg") := by
  refine ⟨urlItem_idem, rfl, rfl, urlTrade_output_shape, ?_, ?_, by decide⟩
  · intro u h
    rw [h]
    rfl
  · intro u fn hshape hsl
    constructor
    · intro heq
      by_contra hlw
      have hlw2 : leadsWith (str "images-") fn = true := by
        cases hval : leadsWith (str "images-") fn with
        | true => rfl
        | false => exact absurd hval hlw
      rw [hshape, urlTrade_on_proxy_shape fn hsl] at heq
      have h3 : ('/' :: stripImagesLead fn) = ('/' :: fn) := List.append_cancel_left heq
      have h4 : stripImagesLead fn = fn := by injection h3
      unfold stripImagesLead at h4
      rw [if_pos hlw2] at h4
      have hlen := leadsWith_length (str "images-") fn hlw2
      have hlen7 : (str "images-").length = 7 := by decide
      rw [hlen7] at hlen
      have h5 := congrArg List.length h4
      rw [List.length_drop] at h5
      omega
    · intro him
      rw [hshape, urlTrade_on_proxy_shape fn hsl]
      unfold stripImagesLead
      rw [if_neg ?_]
      intro hcon
      rw [hcon] at him
      exact absurd him (by simp)

/-- C9 witness: the characterization conjunct applied to the concrete
input `a.jpg`, whose proxy rewrite has no surviving `images-` lead. -/
theorem url_helpers_idempotence_witness :
    ensureAbsoluteImageUrlTrade (ensureAbsoluteImageUrlTrade (str "a.jpg"))
      = ensureAbsoluteImageUrlTrade (str "a.jpg") :=
  (url_helpers_idempotence.2.2.2.2.2.1 (str "a.jpg") (str "a.jpg")
    (by decide) (by decide)).mpr (by decide)

theorem setStatusFun_iid (i : Nat) (st : ItemStatus) (it : ItemR) :
    (if it.iid == i then { it with status := st } else it).iid = it.iid := by
  split <;> rfl

theorem setStatusFun_owner (i : Nat) (st : ItemStatus) (it : ItemR) :
    (if it.iid == i then { it with status := st } else it).owner = it.owner := by
  split <;> rfl

theorem find?_setItemStatus (items : List ItemR) (i j : Nat) (st : ItemStatus) :
    (setItemStatus items i st).find? (fun it => it.iid == j)
      = (items.find? (fun it => it.iid == j)).map
          (fun it => if it.iid == i then { it with status := st } else it) := by
  unfold setItemStatus
  rw [List.find?_map]
  have hp : ((fun it : ItemR => it.iid == j) ∘ (fun it =>
      if it.iid == i then { it with status := st } else it))
      = (fun it : ItemR => it.iid == j) := by
    funext it
    simp only [Function.comp]
    rw [setStatusFun_iid]
  rw [hp]

theorem findItem_facts {s : WState} {i : Nat} {it : ItemR}
    (h : findItem s i = some it) : it ∈ s.items ∧ it.iid = i := by
  refine ⟨List.mem_of_find?_eq_some h, ?_⟩
  have := List.find?_some h
  simpa using this

theorem propose_ok_nomatch {s : WState} {offId reqId initr : Nat} {r : ProposeOk}
    (h : propose s offId reqId initr = Except.ok r) (hm : r.matched = false) :
    ∃ off req, findItem s offId = some off ∧ findItem s reqId = some req ∧
      off.owner = initr ∧ ¬ req.owner = initr ∧
      s.trades.any (isIdentical offId reqId initr) = false ∧
      off.status = .available ∧
      s.trades.find? (isReciprocal offId reqId) = none ∧
      req.status = .available ∧
      r = { trade := newTradeOf s offId reqId initr req.owner .pending,
            matched := false,
            state := nomatchSucc s offId reqId initr req.owner } := by
  unfold propose at h
  cases hoff : findItem s offId with
  | none => rw [hoff] at h; simp at h
  | some off =>
    cases hreq : findItem s reqId with
    | none => rw [hoff, hreq] at h; simp at h
    | some req =>
      rw [hoff, hreq] at h
      dsimp only at h
      by_cases h1 : off.owner = initr
      · rw [if_pos h1] at h
        by_cases h2 : req.owner = initr
        · rw [if_pos h2] at h; simp at h
        · rw [if_neg h2] at h
          by_cases h3 : s.trades.any (isIdentical offId reqId initr) = true
          · rw [if_pos h3] at h; simp at h
          · rw [if_neg h3] at h
            by_cases h4 : off.status = ItemStatus.available
            · rw [if_pos h4] at h
              cases hrec : s.trades.find? (isReciprocal offId reqId) with
              | some recip =>
                rw [hrec] at h
                have := congrArg ProposeOk.matched (Except.ok.inj h)
                rw [hm] at this
                simp at this
              | none =>
                rw [hrec] at h
                by_cases h5 : req.status = ItemStatus.available
                · rw [if_pos h5] at h
                  refine ⟨off, req, rfl, rfl, h1, h2, Bool.eq_false_iff.mpr h3, h4, rfl, h5, ?_⟩
                  exact (Except.ok.inj h).symm
                · rw [if_neg h5] at h; simp at h
            · rw [if_neg h4] at h; simp at h
      · rw [if_neg h1] at h; simp at h

theorem propose_ok_match {s : WState} {offId reqId initr : Nat} {r : ProposeOk}
    (h : propose s offId reqId initr = Except.ok r) (hm : r.matched = true) :
    ∃ off req recip, findItem s offId = some off ∧ findItem s reqId = some req ∧
      off.owner = initr ∧ ¬ req.owner = initr ∧
      s.trades.any (isIdentical offId reqId initr) = false ∧
      off.status = .available ∧
      s.trades.find? (isReciprocal offId reqId) = some recip ∧
      r = { trade := newTradeOf s offId reqId initr req.owner .accepted,
            matched := true,
            state := matchSucc s offId reqId initr req.owner recip } := by
  unfold propose at h
  cases hoff : findItem s offId with
  | none => rw [hoff] at h; simp at h
  | some off =>
    cases hreq : findItem s reqId with
    | none => rw [hoff, hreq] at h; simp at h
    | some req =>
      rw [hoff, hreq] at h
      dsimp only at h
      by_cases h1 : off.owner = initr
      · rw [if_pos h1] at h
        by_cases h2 : req.owner = initr
        · rw [if_pos h2] at h; simp at h
        · rw [if_neg h2] at h
          by_cases h3 : s.trades.any (isIdentical offId reqId initr) = true
          · rw [if_pos h3] at h; simp at h
          · rw [if_neg h3] at h
            by_cases h4 : off.status = ItemStatus.available
            · rw [if_pos h4] at h
              cases hrec : s.trades.find? (isReciprocal offId reqId) with
              | some recip =>
                rw [hrec] at h
                refine ⟨off, req, recip, rfl, rfl, h1, h2, Bool.eq_false_iff.mpr h3, h4, rfl, ?_⟩
                exact (Except.ok.inj h).symm
              | none =>
                rw [hrec] at h
                by_cases h5 : req.status = ItemStatus.available
                · rw [if_pos h5] at h
                  have := congrArg ProposeOk.matched (Except.ok.inj h)
                  rw [hm] at this
                  simp at this
                · rw [if_neg h5] at h; simp at h
            · rw [if_neg h4] at h; simp at h
      · rw [if_neg h1] at h; simp at h

theorem propose_again_conflict {s : WState} {offId reqId initr : Nat} {r : ProposeOk}
    (h : propose s offId reqId initr = Except.ok r) (hm : r.matched = false) :
    propose r.state offId reqId initr = Except.error WErr.conflictError := by
  obtain ⟨off, req, hoff, hreq, hown, hreqown, hdup, hsto, hrecip, hstr, hr⟩ :=
    propose_ok_nomatch h hm
  have hioff : off.iid = offId := (findItem_facts hoff).2
  have hireq : req.iid = reqId := (findItem_facts hreq).2
  have hne : offId ≠ reqId := by
    intro he
    rw [he] at hoff
    rw [hoff] at hreq
    have heq : off = req := by injection hreq
    exact hreqown (heq ▸ hown)
  subst hr
  show propose (nomatchSucc s offId reqId initr req.owner) offId reqId initr = _
  have hfoff : findItem (nomatchSucc s offId reqId initr req.owner) offId
      = some { off with status := ItemStatus.pending } := by
    show (setItemStatus s.items offId .pending).find? (fun it => it.iid == offId) = _
    rw [find?_setItemStatus]
    rw [show List.find? (fun it : ItemR => it.iid == offId) s.items = some off from hoff]
    simp [Option.map, hioff]
  have hfreq : findItem (nomatchSucc s offId reqId initr req.owner) reqId = some req := by
    show (setItemStatus s.items offId .pending).find? (fun it => it.iid == reqId) = _
    rw [find?_setItemStatus]
    rw [show List.find? (fun it : ItemR => it.iid == reqId) s.items = some req from hreq]
    have hb : (req.iid == offId) = false := by
      rw [hireq]
      exact beq_eq_false_iff_ne.mpr (fun hc => hne hc.symm)
    simp [Option.map, hb]
  unfold propose
  rw [hfoff, hfreq]
  dsimp only
  rw [if_pos hown, if_neg hreqown]
  have hany : ((nomatchSucc s offId reqId initr req.owner).trades.any
      (isIdentical offId reqId initr)) = true := by
    show ((s.trades ++ [newTradeOf s offId reqId initr req.owner .pending]).any
      (isIdentical offId reqId initr)) = true
    rw [List.any_append]
    simp [isIdentical, newTradeOf]
  rw [if_pos hany]

theorem any_isIdentical_map_accept (l : List TradeR) (rid offId reqId initr : Nat)
    (h : l.any (isIdentical offId reqId initr) = false) :
    (l.map (fun t => if t.tid == rid then { t with status := TradeStatus.accepted } else t)).any
      (isIdentical offId reqId initr) = false := by
  rw [List.any_map]
  rw [List.any_eq_false] at h ⊢
  intro t ht
  simp only [Function.comp]
  split
  · simp [isIdentical]
  · exact h t ht

theorem propose_again_invalid {s : WState} {offId reqId initr : Nat} {r : ProposeOk}
    (h : propose s offId reqId initr = Except.ok r) (hm : r.matched = true) :
    propose r.state offId reqId initr = Except.error WErr.invalidStateError := by
  obtain ⟨off, req, recip, hoff, hreq, hown, hreqown, hdup, hsto, hrecip, hr⟩ :=
    propose_ok_match h hm
  have hioff : off.iid = offId := (findItem_facts hoff).2
  have hireq : req.iid = reqId := (findItem_facts hreq).2
  have hne : offId ≠ reqId := by
    intro he
    rw [he] at hoff
    rw [hoff] at hreq
    have heq : off = req := by injection hreq
    exact hreqown (heq ▸ hown)
  subst hr
  show propose (matchSucc s offId reqId initr req.owner recip) offId reqId initr = _
  have hfoff : findItem (matchSucc s offId reqId initr req.owner recip) offId
      = some { off with status := ItemStatus.traded } := by
    show ((setItemStatus (setItemStatus s.items offId .traded) reqId .traded).find?
      (fun it => it.iid == offId)) = _
    rw [find?_setItemStatus, find?_setItemStatus]
    rw [show List.find? (fun it : ItemR => it.iid == offId) s.items = some off from hoff]
    have hb : (off.iid == reqId) = false := by
      rw [hioff]
      exact beq_eq_false_iff_ne.mpr hne
    simp [Option.map, hioff, hb]
  have hfreq : findItem (matchSucc s offId reqId initr req.owner recip) reqId
      = some { req with status := ItemStatus.traded } := by
    show ((setItemStatus (setItemStatus s.items offId .traded) reqId .traded).find?
      (fun it => it.iid == reqId)) = _
    rw [find?_setItemStatus, find?_setItemStatus]
    rw [show List.find? (fun it : ItemR => it.iid == reqId) s.items = some req from hreq]
    have hb : (req.iid == offId) = false := by
      rw [hireq]
      exact beq_eq_false_iff_ne.mpr (fun hc => hne hc.symm)
    have hne2 : ¬ (reqId = offId) := fun hc => hne hc.symm
    simp [Option.map, hireq, hb, hne2]
  unfold propose
  rw [hfoff, hfreq]
  dsimp only
  rw [if_pos hown, if_neg hreqown]
  have hany : ((matchSucc s offId reqId initr req.owner recip).trades.any
      (isIdentical offId reqId initr)) = false := by
    show (((s.trades.map (fun t =>
        if t.tid == recip.tid then { t with status := TradeStatus.accepted } else t))
        ++ [newTradeOf s offId reqId initr req.owner .accepted]).any
      (isIdentical offId reqId initr)) = false
    rw [List.any_append]
    rw [any_isIdentical_map_accept s.trades recip.tid offId reqId initr hdup]
    simp [isIdentical, newTradeOf]
  rw [if_neg (by rw [hany]; exact Bool.false_ne_true)]
  rw [if_neg (show ¬ (({ off with status := ItemStatus.traded } : ItemR).status
    = ItemStatus.available) from fun hc => ItemStatus.noConfusion hc)]

theorem mem_setItemStatus {items : List ItemR} {i : Nat} {st : ItemStatus} {it : ItemR}
    (h : it ∈ setItemStatus items i st) :
    ∃ it0 ∈ items, it.iid = it0.iid ∧ it.owner = it0.owner := by
  unfold setItemStatus at h
  obtain ⟨it0, h0, hef⟩ := List.mem_map.mp h
  exact ⟨it0, h0, by rw [← hef, setStatusFun_iid], by rw [← hef, setStatusFun_owner]⟩

theorem ownerCoherent_of_mapped {items items2 : List ItemR}
    (hsub : ∀ it ∈ items2, ∃ it0 ∈ items, it.iid = it0.iid ∧ it.owner = it0.owner)
    (h : ∀ a ∈ items, ∀ b ∈ items, a.iid = b.iid → a.owner = b.owner) :
    ∀ a ∈ items2, ∀ b ∈ items2, a.iid = b.iid → a.owner = b.owner := by
  intro a ha b hb hab
  obtain ⟨a0, ha0, haid, haow⟩ := hsub a ha
  obtain ⟨b0, hb0, hbid, hbow⟩ := hsub b hb
  rw [haow, hbow]
  exact h a0 ha0 b0 hb0 (by rw [← haid, ← hbid, hab])

theorem countP_pendingFor_map_status (l : List TradeR) (rid : Nat) (st : TradeStatus)
    (hst : st ≠ TradeStatus.pending) (offId reqId : Nat) :
    ((l.map (fun t => if t.tid == rid then { t with status := st } else t)).countP
      (pendingFor offId reqId)) ≤ l.countP (pendingFor offId reqId) := by
  rw [List.countP_map]
  apply List.countP_mono_left
  intro t ht hp
  simp only [Function.comp] at hp
  revert hp
  split
  · intro hp
    exfalso
    simp [pendingFor] at hp
    exact hst hp.2
  · exact id

theorem no_pending_pair {s : WState} {offId reqId initr : Nat} {off : ItemR}
    (hoff : findItem s offId = some off) (hown : off.owner = initr)
    (hInitOwn : InitMatchesOwner s)
    (hdup : s.trades.any (isIdentical offId reqId initr) = false) :
    s.trades.countP (pendingFor offId reqId) = 0 := by
  rw [List.countP_eq_zero]
  intro t ht hp
  simp only [pendingFor, Bool.and_eq_true, beq_iff_eq] at hp
  obtain ⟨⟨ho, hr⟩, hs⟩ := hp
  have hst : t.status = TradeStatus.pending := by
    cases htt : t.status <;> simp [htt] at hs ⊢
  have hoffmem := (findItem_facts hoff).1
  have hoffiid := (findItem_facts hoff).2
  have hinit : t.initiatedBy = off.owner :=
    hInitOwn t ht hst off hoffmem (by rw [hoffiid, ho])
  rw [List.any_eq_false] at hdup
  apply hdup t ht
  simp [isIdentical, ho, hr, hst, hinit, hown]

theorem winv_nomatchSucc {s : WState} {offId reqId initr : Nat} {off : ItemR} (respBy : Nat)
    (hOC : OwnerCoherent s) (hInitOwn : InitMatchesOwner s) (hPU : PairUnique s)
    (hoff : findItem s offId = some off)
    (hown : off.owner = initr)
    (hdup : s.trades.any (isIdentical offId reqId initr) = false) :
    WInv (nomatchSucc s offId reqId initr respBy) := by
  refine ⟨?_, ?_, ?_⟩
  · show ∀ a ∈ setItemStatus s.items offId .pending,
      ∀ b ∈ setItemStatus s.items offId .pending, a.iid = b.iid → a.owner = b.owner
    exact ownerCoherent_of_mapped (fun it hit => mem_setItemStatus hit) hOC
  · show ∀ t ∈ (s.trades ++ [newTradeOf s offId reqId initr respBy .pending]),
      t.status = TradeStatus.pending →
      ∀ it ∈ setItemStatus s.items offId .pending, it.iid = t.offeredItem →
        t.initiatedBy = it.owner
    intro t ht hst it hit hiid
    obtain ⟨it0, hit0, hiid0, how0⟩ := mem_setItemStatus hit
    rw [List.mem_append] at ht
    cases ht with
    | inl hmem =>
      rw [how0]
      exact hInitOwn t hmem hst it0 hit0 (by rw [← hiid0]; exact hiid)
    | inr hone =>
      rw [List.mem_singleton] at hone
      subst hone
      show initr = it.owner
      have hiid2 : it.iid = offId := hiid
      have heq : it0.owner = off.owner :=
        hOC it0 hit0 off (findItem_facts hoff).1 (by rw [← hiid0, hiid2, (findItem_facts hoff).2])
      rw [how0, heq, hown]
  · intro o rq
    show ((s.trades ++ [newTradeOf s offId reqId initr respBy .pending]).countP
      (pendingFor o rq)) ≤ 1
    rw [List.countP_append]
    by_cases h1 : offId = o
    · by_cases h2 : reqId = rq
      · subst h1
        subst h2
        rw [no_pending_pair hoff hown hInitOwn hdup]
        simp [List.countP_cons, pendingFor, newTradeOf]
      · have hnt : pendingFor o rq (newTradeOf s offId reqId initr respBy .pending) = false := by
          simp [pendingFor, newTradeOf, h2]
        simp only [List.countP_cons, List.countP_nil, hnt, if_false, Nat.add_zero, cond_false]
        simpa using hPU o rq
    · have hnt : pendingFor o rq (newTradeOf s offId reqId initr respBy .pending) = false := by
        simp [pendingFor, newTradeOf, h1]
      simp only [List.countP_cons, List.countP_nil, hnt, if_false, Nat.add_zero, cond_false]
      simpa using hPU o rq

theorem winv_matchSucc {s : WState} (offId reqId initr respBy : Nat) (recip : TradeR)
    (hOC : OwnerCoherent s) (hInitOwn : InitMatchesOwner s) (hPU : PairUnique s) :
    WInv (matchSucc s offId reqId initr respBy recip) := by
  refine ⟨?_, ?_, ?_⟩
  · show ∀ a ∈ setItemStatus (setItemStatus s.items offId .traded) reqId .traded,
      ∀ b ∈ setItemStatus (setItemStatus s.items offId .traded) reqId .traded,
      a.iid = b.iid → a.owner = b.owner
    exact ownerCoherent_of_mapped (fun it hit => mem_setItemStatus hit)
      (ownerCoherent_of_mapped (fun it hit => mem_setItemStatus hit) hOC)
  · show ∀ t ∈ ((s.trades.map (fun t =>
        if t.tid == recip.tid then { t with status := TradeStatus.accepted } else t))
        ++ [newTradeOf s offId reqId initr respBy .accepted]),
      t.status = TradeStatus.pending →
      ∀ it ∈ setItemStatus (setItemStatus s.items offId .traded) reqId .traded,
        it.iid = t.offeredItem → t.initiatedBy = it.owner
    intro t ht hst it hit hiid
    rw [List.mem_append] at ht
    cases ht with
    | inl hmem =>
      obtain ⟨t0, ht0, hgt⟩ := List.mem_map.mp hmem
      by_cases htid : (t0.tid == recip.tid) = true
      · rw [← hgt, if_pos htid] at hst
        exact absurd hst (fun hc => TradeStatus.noConfusion hc)
      · have hteq : t = t0 := by rw [← hgt, if_neg htid]
        subst hteq
        obtain ⟨it1, hit1, hiid1, how1⟩ := mem_setItemStatus hit
        obtain ⟨it0, hit0, hiid0, how0⟩ := mem_setItemStatus hit1
        rw [how1, how0]
        exact hInitOwn t ht0 hst it0 hit0 (by rw [← hiid0, ← hiid1]; exact hiid)
    | inr hone =>
      rw [List.mem_singleton] at hone
      subst hone
      exact absurd hst (fun hc => TradeStatus.noConfusion hc)
  · intro o rq
    show (((s.trades.map (fun t =>
        if t.tid == recip.tid then { t with status := TradeStatus.accepted } else t))
        ++ [newTradeOf s offId reqId initr respBy .accepted]).countP (pendingFor o rq)) ≤ 1
    rw [List.countP_append]
    have hacc : pendingFor o rq (newTradeOf s offId reqId initr respBy .accepted) = false := by
      simp [pendingFor, newTradeOf]
    have hm := countP_pendingFor_map_status s.trades recip.tid TradeStatus.accepted
      (fun hc => TradeStatus.noConfusion hc) o rq
    simp only [List.countP_cons, List.countP_nil, hacc, if_false, Nat.add_zero, cond_false]
    exact le_trans hm (hPU o rq)

theorem winv_statusMap (s : WState) (tid : Nat) (st : TradeStatus)
    (hst : st ≠ TradeStatus.pending) (items2 : List ItemR) (notifs2 : List NotifR) (nid2 : Nat)
    (hsub : ∀ it ∈ items2, ∃ it0 ∈ s.items, it.iid = it0.iid ∧ it.owner = it0.owner)
    (hOC : OwnerCoherent s) (hInitOwn : InitMatchesOwner s) (hPU : PairUnique s) :
    WInv { users := s.users, items := items2,
           trades := s.trades.map (fun t => if t.tid == tid then { t with status := st } else t),
           notifs := notifs2, nextId := nid2 } := by
  refine ⟨?_, ?_, ?_⟩
  · show ∀ a ∈ items2, ∀ b ∈ items2, a.iid = b.iid → a.owner = b.owner
    exact ownerCoherent_of_mapped hsub hOC
  · show ∀ t ∈ s.trades.map (fun t => if t.tid == tid then { t with status := st } else t),
      t.status = TradeStatus.pending →
      ∀ it ∈ items2, it.iid = t.offeredItem → t.initiatedBy = it.owner
    intro t ht hpend it hit hiid
    obtain ⟨t0, ht0, hgt⟩ := List.mem_map.mp ht
    by_cases htid : (t0.tid == tid) = true
    · rw [← hgt, if_pos htid] at hpend
      exact absurd hpend hst
    · have hteq : t = t0 := by rw [← hgt, if_neg htid]
      subst hteq
      obtain ⟨it0, hit0, hiid0, how0⟩ := hsub it hit
      rw [how0]
      exact hInitOwn t ht0 hpend it0 hit0 (by rw [← hiid0]; exact hiid)
  · intro o rq
    show ((s.trades.map (fun t => if t.tid == tid then { t with status := st } else t)).countP
      (pendingFor o rq)) ≤ 1
    exact le_trans (countP_pendingFor_map_status s.trades tid st hst o rq) (hPU o rq)

theorem acceptTrade_ok {s : WState} {tradeId responder : Nat} {s2 : WState}
    (h : acceptTrade s tradeId responder = Except.ok s2) :
    ∃ t, s.trades.find? (fun t => t.tid == tradeId) = some t ∧
      t.respondedBy = responder ∧ t.status = TradeStatus.pending ∧
      s2 = { users := s.users,
             items := setItemStatus (setItemStatus s.items t.offeredItem .traded)
               t.requestedItem .traded,
             trades := s.trades.map (fun u =>
               if u.tid == tradeId then { u with status := TradeStatus.accepted } else u),
             notifs := s.notifs ++
               [ { nid := s.nextId, userN := t.initiatedBy, ntype := .tradeT,
                   relatedTrade := some t.tid, read := false } ],
             nextId := s.nextId + 1 } := by
  unfold acceptTrade at h
  cases hf : s.trades.find? (fun t => t.tid == tradeId) with
  | none => rw [hf] at h; simp at h
  | some t =>
    rw [hf] at h
    dsimp only at h
    by_cases h1 : t.respondedBy = responder
    · rw [if_pos h1] at h
      by_cases h2 : t.status = TradeStatus.pending
      · rw [if_pos h2] at h
        refine ⟨t, rfl, h1, h2, ?_⟩
        have := Except.ok.inj h
        rw [← this]
      · rw [if_neg h2] at h; simp at h
    · rw [if_neg h1] at h; simp at h

theorem rejectTrade_ok {s : WState} {tradeId responder : Nat} {s2 : WState}
    (h : rejectTrade s tradeId responder = Except.ok s2) :
    ∃ t, s.trades.find? (fun t => t.tid == tradeId) = some t ∧
      t.respondedBy = responder ∧ t.status = TradeStatus.pending ∧
      s2 = { users := s.users,
             items := setItemStatus s.items t.offeredItem .available,
             trades := s.trades.map (fun u =>
               if u.tid == tradeId then { u with status := TradeStatus.rejected } else u),
             notifs := s.notifs,
             nextId := s.nextId } := by
  unfold rejectTrade at h
  cases hf : s.trades.find? (fun t => t.tid == tradeId) with
  | none => rw [hf] at h; simp at h
  | some t =>
    rw [hf] at h
    dsimp only at h
    by_cases h1 : t.respondedBy = responder
    · rw [if_pos h1] at h
      by_cases h2 : t.status = TradeStatus.pending
      · rw [if_pos h2] at h
        refine ⟨t, rfl, h1, h2, ?_⟩
        have := Except.ok.inj h
        rw [← this]
      · rw [if_neg h2] at h; simp at h
    · rw [if_neg h1] at h; simp at h

theorem winv_applyOp {s : WState} (h : WInv s) (op : WOp) : WInv (applyOp s op) := by
  obtain ⟨hOC, hInitOwn, hPU⟩ := h
  cases op with
  | proposeOp offId reqId initr =>
    show WInv (match propose s offId reqId initr with
      | .ok r => r.state
      | .error _ => s)
    cases hp : propose s offId reqId initr with
    | error e => exact ⟨hOC, hInitOwn, hPU⟩
    | ok r =>
      cases hrm : r.matched with
      | false =>
        obtain ⟨off, req, hoff, hreq, hown, hreqown, hdup, hsto, hrecip, hstr, hr⟩ :=
          propose_ok_nomatch hp hrm
        rw [hr]
        exact winv_nomatchSucc req.owner hOC hInitOwn hPU hoff hown hdup
      | true =>
        obtain ⟨off, req, recip, hoff, hreq, hown, hreqown, hdup, hsto, hrecip, hr⟩ :=
          propose_ok_match hp hrm
        rw [hr]
        exact winv_matchSucc offId reqId initr req.owner recip hOC hInitOwn hPU
  | acceptOp tradeId responder =>
    show WInv (match acceptTrade s tradeId responder with
      | .ok s2 => s2
      | .error _ => s)
    cases ha : acceptTrade s tradeId responder with
    | error e => exact ⟨hOC, hInitOwn, hPU⟩
    | ok s2 =>
      obtain ⟨t, hf, h1, h2, hs2⟩ := acceptTrade_ok ha
      rw [hs2]
      refine winv_statusMap s tradeId TradeStatus.accepted
        (fun hc => TradeStatus.noConfusion hc) _ _ _ ?_ hOC hInitOwn hPU
      intro it hit
      obtain ⟨it1, hit1, hiid1, how1⟩ := mem_setItemStatus hit
      obtain ⟨it0, hit0, hiid0, how0⟩ := mem_setItemStatus hit1
      exact ⟨it0, hit0, by rw [hiid1, hiid0], by rw [how1, how0]⟩
  | rejectOp tradeId responder =>
    show WInv (match rejectTrade s tradeId responder with
      | .ok s2 => s2
      | .error _ => s)
    cases ha : rejectTrade s tradeId responder with
    | error e => exact ⟨hOC, hInitOwn, hPU⟩
    | ok s2 =>
      obtain ⟨t, hf, h1, h2, hs2⟩ := rejectTrade_ok ha
      rw [hs2]
      refine winv_statusMap s tradeId TradeStatus.rejected
        (fun hc => TradeStatus.noConfusion hc) _ _ _ ?_ hOC hInitOwn hPU
      intro it hit
      exact mem_setItemStatus hit

theorem winv_runOps {s : WState} (h : WInv s) (ops : List WOp) : WInv (runOps s ops) := by
  induction ops generalizing s with
  | nil => exact h
  | cons op t ih => exact ih (winv_applyOp h op)

/-- C3 counterexample: when a reciprocal pending proposal exists, the
first `propose` succeeds as a match (offered item becomes `traded`), and
the second call with the identical triple fails with
`InvalidStateError`, not `ConflictError` — so the two calls neither
return the same trade nor fail the second call with `ConflictError`. -/
theorem propose_twice_after_match_not_conflict :
    propose reciprocalState 10 11 1
        = Except.ok { trade := { tid := 200, offeredItem := 10, requestedItem := 11,
                                 initiatedBy := 1, respondedBy := 2, status := .accepted },
                      matched := true,
                      state := matchSucc reciprocalState 10 11 1 2
                        { tid := 100, offeredItem := 11, requestedItem := 10,
                          initiatedBy := 2, respondedBy := 1, status := .pending } }
    ∧ propose (matchSucc reciprocalState 10 11 1 2
        { tid := 100, offeredItem := 11, requestedItem := 10,
          initiatedBy := 2, respondedBy := 1, status := .pending }) 10 11 1
        = Except.error WErr.invalidStateError := by
  decide

/-- C3 (amended): if the first `propose` succeeds unmatched (a pending
Trade is created), the identical second call fails with
`ConflictError`; if the first call matched, the identical second call
fails with `InvalidStateError` (the offered item is now `traded`); and
in every execution of the workflow from a clean ownership-coherent
start, at most one pending Trade exists per (offeredItem,
requestedItem) pair. -/
theorem propose_idempotent_pair_unique :
    (∀ (s : WState) (offId reqId initr : Nat) (r : ProposeOk),
      propose s offId reqId initr = Except.ok r → r.matched = false →
      propose r.state offId reqId initr = Except.error WErr.conflictError)
    ∧ (∀ (s : WState) (offId reqId initr : Nat) (r : ProposeOk),
      propose s offId reqId initr = Except.ok r → r.matched = true →
      propose r.state offId reqId initr = Except.error WErr.invalidStateError)
    ∧ (∀ s : WState, OwnerCoherent s → s.trades = [] →
        ∀ ops : List WOp, PairUnique (runOps s ops)) := by
  refine ⟨fun s offId reqId initr r h hm => propose_again_conflict h hm,
    fun s offId reqId initr r h hm => propose_again_invalid h hm, ?_⟩
  intro s hOC htr ops
  have hInitOwn : InitMatchesOwner s := by
    intro t ht
    rw [htr] at ht
    simp at ht
  have hPU : PairUnique s := by
    intro o rq
    show s.trades.countP (pendingFor o rq) ≤ 1
    rw [htr]
    simp
  exact (winv_runOps ⟨hOC, hInitOwn, hPU⟩ ops).2.2

/-- C3 witness: the unmatched branch applied concretely — after user 1
proposes item 10 for item 11 in the fresh state, repeating the identical
call fails with `ConflictError`. -/
theorem propose_idempotent_pair_unique_witness :
    propose (nomatchSucc freshState 10 11 1 2) 10 11 1
      = Except.error WErr.conflictError := by
  have h := propose_idempotent_pair_unique.1 freshState 10 11 1
    { trade := { tid := 100, offeredItem := 10, requestedItem := 11,
                 initiatedBy := 1, respondedBy := 2, status := .pending },
      matched := false,
      state := nomatchSucc freshState 10 11 1 2 } (by decide) rfl
  exact h

/-- C1: if user A proposes (itemA → itemB) while user B's reciprocal
pending Trade (itemB → itemA) exists, the call succeeds as a match:
both Trades end `accepted`, both items end `traded`, both users'
`stats.trades` increment by exactly 1, and exactly one `match`
notification exists per party. -/
theorem trade_match_symmetry
    (aId bId iaId ibId tId n0 ta tb la lb xa xb : Nat)
    (hab : aId ≠ bId) (hij : iaId ≠ ibId) :
    ∃ r, propose (c1State aId bId iaId ibId tId n0 ta tb la lb xa xb) iaId ibId aId
        = Except.ok r
      ∧ r.matched = true
      ∧ (∀ t ∈ r.state.trades, t.status = TradeStatus.accepted)
      ∧ (∀ it ∈ r.state.items, it.status = ItemStatus.traded)
      ∧ userTrades r.state aId = ta + 1
      ∧ userTrades r.state bId = tb + 1
      ∧ matchNotifCount r.state aId = 1
      ∧ matchNotifCount r.state bId = 1 := by
  have hab2 : (aId == bId) = false := beq_eq_false_iff_ne.mpr hab
  have hba : (bId == aId) = false := beq_eq_false_iff_ne.mpr (Ne.symm hab)
  have hij2 : (iaId == ibId) = false := beq_eq_false_iff_ne.mpr hij
  have hji : (ibId == iaId) = false := beq_eq_false_iff_ne.mpr (Ne.symm hij)
  refine ⟨{ trade := newTradeOf (c1State aId bId iaId ibId tId n0 ta tb la lb xa xb)
              iaId ibId aId bId .accepted,
            matched := true,
            state := matchSucc (c1State aId bId iaId ibId tId n0 ta tb la lb xa xb)
              iaId ibId aId bId (c1Recip tId ibId iaId bId aId) },
    ?_, rfl, ?_, ?_, ?_, ?_, ?_, ?_⟩
  · unfold propose
    have hfa : findItem (c1State aId bId iaId ibId tId n0 ta tb la lb xa xb) iaId
        = some { iid := iaId, owner := aId, status := .available } := by
      simp [findItem, c1State, List.find?]
    have hfb : findItem (c1State aId bId iaId ibId tId n0 ta tb la lb xa xb) ibId
        = some { iid := ibId, owner := bId, status := .pending } := by
      simp [findItem, c1State, List.find?, hij2]
    rw [hfa, hfb]
    dsimp only
    rw [if_pos rfl, if_neg (fun hc => hab (hc.symm))]
    have hdup : ((c1State aId bId iaId ibId tId n0 ta tb la lb xa xb).trades.any
        (isIdentical iaId ibId aId)) = false := by
      simp [c1State, isIdentical, hji]
    rw [if_neg (by rw [hdup]; exact Bool.false_ne_true)]
    rw [if_pos rfl]
    have hrec : ((c1State aId bId iaId ibId tId n0 ta tb la lb xa xb).trades.find?
        (isReciprocal iaId ibId)) = some (c1Recip tId ibId iaId bId aId) := by
      simp [c1State, c1Recip, List.find?, isReciprocal]
    rw [hrec]
  · intro t ht
    have htr : (matchSucc (c1State aId bId iaId ibId tId n0 ta tb la lb xa xb)
        iaId ibId aId bId (c1Recip tId ibId iaId bId aId)).trades
        = [{ tid := tId, offeredItem := ibId, requestedItem := iaId,
             initiatedBy := bId, respondedBy := aId, status := TradeStatus.accepted },
           { tid := n0, offeredItem := iaId, requestedItem := ibId,
             initiatedBy := aId, respondedBy := bId, status := TradeStatus.accepted }] := by
      simp [matchSucc, c1State, c1Recip, newTradeOf]
    rw [htr] at ht
    simp only [List.mem_cons, List.mem_singleton, List.not_mem_nil, or_false] at ht
    rcases ht with h | h <;> rw [h]
  · intro it hit
    have hitems : (matchSucc (c1State aId bId iaId ibId tId n0 ta tb la lb xa xb)
        iaId ibId aId bId (c1Recip tId ibId iaId bId aId)).items
        = [{ iid := iaId, owner := aId, status := ItemStatus.traded },
           { iid := ibId, owner := bId, status := ItemStatus.traded }] := by
      simp [matchSucc, c1State, setItemStatus, hij2, hji, hij, Ne.symm hij]
    rw [hitems] at hit
    simp only [List.mem_cons, List.mem_singleton, List.not_mem_nil, or_false] at hit
    rcases hit with h | h <;> rw [h]
  · show userTrades _ aId = ta + 1
    simp [matchSucc, c1State, c1Recip, bumpTrades, userTrades, List.find?, hab2, hba]
  · show userTrades _ bId = tb + 1
    simp [matchSucc, c1State, c1Recip, bumpTrades, userTrades, List.find?, hab2, hba]
  · show matchNotifCount _ aId = 1
    simp [matchSucc, c1State, matchNotifCount, List.countP_cons, hab2, hba]
  · show matchNotifCount _ bId = 1
    simp [matchSucc, c1State, matchNotifCount, List.countP_cons, hab2, hba]

/-- C1 witness: the match-symmetry theorem on the concrete reciprocal
state (users 1 and 2, items 10 and 11, pending trade 100). -/
theorem trade_match_symmetry_witness :
    ∃ r, propose (c1State 1 2 10 11 100 200 0 0 0 0 0 0) 10 11 1 = Except.ok r
      ∧ r.matched = true
      ∧ (∀ t ∈ r.state.trades, t.status = TradeStatus.accepted)
      ∧ (∀ it ∈ r.state.items, it.status = ItemStatus.traded)
      ∧ userTrades r.state 1 = 0 + 1
      ∧ userTrades r.state 2 = 0 + 1
      ∧ matchNotifCount r.state 1 = 1
      ∧ matchNotifCount r.state 2 = 1 :=
  trade_match_symmetry 1 2 10 11 100 200 0 0 0 0 0 0 (by decide) (by decide)

/-- C4 witness: the 0-image conjunct of the boundary theorem applied to
an otherwise-valid form with no images. -/
theorem submit_image_boundaries_witness :
    submitValidation
      { nameT := str "Lamp", description := str "A desk lamp", category := str "Home",
        condition := str "Good", images := [] } ≠ none :=
  submit_image_boundaries.1
    { nameT := str "Lamp", description := str "A desk lamp", category := str "Home",
      condition := str "Good", images := [] } rfl
